import Mathlib

/-!
Verification of the autoscout-scraper listing pipeline.

This file gives a shallow embedding of the extraction, normalization,
matching, batch-insert and re-check logic of the repository and proves
or refutes the spec claims about it.  Python dictionaries are modelled
as functions from a field enumeration to `Option (Option Val)` (outer
option: key present; inner option: value non-null), Python integers as
`Int`, and Python truthiness is made explicit.  String normalization
(`str.strip`, `str.lower`) is modelled for ASCII inputs.
-/

/-- Digits of a string in order, as produced by joining all runs found by
the regex for one-or-more digits: joining the runs is the same as keeping
every digit character. -/
def digitChars (s : String) : List Char :=
  s.data.filter Char.isDigit

/-- Numeric value of a list of decimal digit characters. -/
def natOfDigits (ds : List Char) : Nat :=
  ds.foldl (fun a c => 10 * a + (c.toNat - 48)) 0

/-- Python substring containment test on char lists. -/
def containsSubAux (sub : List Char) : List Char → Bool
  | [] => sub.isEmpty
  | l@(_ :: t) => sub.isPrefixOf l || containsSubAux sub t

/-- Python `sub in s` substring test. -/
def pyIn (sub s : String) : Bool :=
  containsSubAux sub.data s.data

/-- ASCII lower-casing of one character. -/
def lowerChar (c : Char) : Char :=
  if 'A' ≤ c && c ≤ 'Z' then Char.ofNat (c.toNat + 32) else c

/-- ASCII upper-casing of one character. -/
def upperChar (c : Char) : Char :=
  if 'a' ≤ c && c ≤ 'z' then Char.ofNat (c.toNat - 32) else c

/-- Python `str.strip` on the character list (ASCII whitespace). -/
def trimChars (l : List Char) : List Char :=
  ((l.dropWhile Char.isWhitespace).reverse.dropWhile Char.isWhitespace).reverse

/-- Python `str.lower()` for ASCII inputs. -/
def pyLowerStr (s : String) : String :=
  ⟨s.data.map lowerChar⟩

/-- Python `str.upper()` for ASCII inputs. -/
def pyUpperStr (s : String) : String :=
  ⟨s.data.map upperChar⟩

/-- Python `str(value).strip().lower()` for ASCII inputs. -/
def pyNorm (s : String) : String :=
  ⟨(trimChars s.data).map lowerChar⟩

/-- Python `int(str)` on a trimmed decimal literal with optional sign. -/
def pyIntOfString (s : String) : Option Int :=
  let t := s.trim
  match t.data with
  | [] => none
  | '-' :: rest =>
    if rest ≠ [] && rest.all Char.isDigit then some (-(natOfDigits rest : Int)) else none
  | '+' :: rest =>
    if rest ≠ [] && rest.all Char.isDigit then some (natOfDigits rest : Int) else none
  | ds =>
    if ds.all Char.isDigit then some (natOfDigits ds : Int) else none

/-! ## Field Normalizer: fuel types (C5)

`FUEL_TYPES` and the alias table are taken verbatim from
`models/enums.py`, `data_processor.py` (`_format_fuel_type`, exact key
lookup) and `scraper.py` (`_format_fuel_type`, substring key matching in
table order). -/

def FUEL_TYPES : List String :=
  ["Gasoline", "Diesel", "Electric", "Hybrid", "Other", "Unknown"]

def fuel_type_map : List (String × String) :=
  [("essence", "Gasoline"), ("gasoline", "Gasoline"), ("petrol", "Gasoline"),
   ("benzine", "Gasoline"), ("b", "Gasoline"), ("diesel", "Diesel"),
   ("d", "Diesel"), ("electric", "Electric"), ("électrique", "Electric"),
   ("electrique", "Electric"), ("elektro", "Electric"), ("e", "Electric"),
   ("hybrid", "Hybrid"), ("hybride", "Hybrid"), ("h", "Hybrid"),
   ("lpg", "Other"), ("gpl", "Other"), ("l", "Other"), ("cng", "Other"),
   ("gnc", "Other"), ("c", "Other"), ("gas", "Other")]

/-- Exact lookup in the alias table (Python dict membership). -/
def fuelAliasLookup (v : String) : Option String :=
  (fuel_type_map.find? (fun kv => kv.1 = v)).map (·.2)

/-- First alias whose key occurs as a substring of the normalized value,
in table (insertion) order — the loop of the scraper variant. -/
def fuelAliasSubLookup (v : String) : Option String :=
  (fuel_type_map.find? (fun kv => pyIn kv.1 v)).map (·.2)

/-- Case-insensitive match against the canonical fuel values. -/
def fuelCanonicalLookup (v : String) : Option String :=
  FUEL_TYPES.find? (fun ft => v = pyLowerStr ft)

namespace DataProcessor

/-- `DataProcessor._format_fuel_type` (data_processor.py): exact alias
lookup on the stripped, lower-cased value, then case-insensitive match
against the canonical values, else Unknown.  The empty string models a
falsy input. -/
def format_fuel_type (value : String) : String :=
  if value = "" then "Unknown"
  else
    let v := pyNorm value
    match fuelAliasLookup v with
    | some r => r
    | none =>
      match fuelCanonicalLookup v with
      | some ft => ft
      | none => "Unknown"

end DataProcessor

namespace Scraper

/-- `AutoscoutScraper._format_fuel_type` (scraper.py): the loop tests
each alias key for substring containment in the normalized value, in
table order, and returns the first hit. -/
def format_fuel_type (value : String) : String :=
  if value = "" then "Unknown"
  else
    let v := pyNorm value
    match fuelAliasSubLookup v with
    | some r => r
    | none =>
      match fuelCanonicalLookup v with
      | some ft => ft
      | none => "Unknown"

end Scraper

/-! ## Field Normalizer: parse_numeric (C6) -/

/-- A Python value fed to `_parse_numeric`: an int, a string, or a float
(modelled as a rational, truncated toward zero as Python `int(float)`).
-/
inductive PyNum where
  | pint (n : Int)
  | pstr (s : String)
  | pfloat (q : Rat)

/-- Truncation toward zero, Python `int` applied to a float. -/
def ratTrunc (q : Rat) : Int :=
  if 0 ≤ q then ⌊q⌋ else ⌈q⌉

namespace DataProcessor

/-- `DataProcessor._parse_numeric` (data_processor.py).  Falsy inputs
(0, 0.0, the empty string) return none; an int is kept only if
positive; a string yields the concatenation of all its digit runs (with
no positivity check); a float is truncated and kept only if positive. -/
def parse_numeric (v : PyNum) : Option Int :=
  match v with
  | .pint n => if n = 0 then none else if n > 0 then some n else none
  | .pstr s =>
    if s = "" then none
    else
      let ds := digitChars s
      if ds.isEmpty then none else some (natOfDigits ds : Int)
  | .pfloat q =>
    if q = 0 then none
    else
      let i := ratTrunc q
      if i > 0 then some i else none

end DataProcessor

/-! ## Field Normalizer: image URL parsing (C7) -/

/-- A JSON-ish value as handled by the extraction code. -/
inductive Val where
  | vStr (s : String)
  | vInt (n : Int)
  | vList (l : List Val)
  | vUrlObj (url : String)

namespace DataProcessor

/-- Input shapes accepted by `DataProcessor._parse_image_urls`. -/
inductive ImgData where
  | absent
  | single (s : String)
  | list (l : List Val)

/-- `DataProcessor._parse_image_urls` (data_processor.py): a falsy input
gives []; a list keeps every string entry and the url field of every
url-object entry (no extension filter, no dedup); a string becomes a
one-element list.  A non-empty single string is the only truthy
`single` case; the empty string and the empty list are falsy. -/
def parse_image_urls (v : ImgData) : List String :=
  match v with
  | .absent => []
  | .single s => if s = "" then [] else [s]
  | .list l =>
    if l.isEmpty then []
    else
      l.foldr (fun item acc =>
        match item with
        | .vStr s => s :: acc
        | .vUrlObj u => u :: acc
        | _ => acc) []

end DataProcessor

/-- The image-extension substrings used by `_extract_image_info`. -/
def imageExts : List String := [".webp", ".jpg", ".jpeg", ".png"]

/-- True when the string contains one of the image-file extensions. -/
def hasImageExt (s : String) : Bool :=
  imageExts.any (fun ext => pyIn ext s)

namespace Scraper

/-- The filtering loop of `_extract_image_info`: keep only string
entries containing an image-file extension. -/
def filteredImages (l : List Val) : List String :=
  l.foldr (fun item acc =>
    match item with
    | .vStr s => if hasImageExt s then s :: acc else acc
    | _ => acc) []

/-- The dedup loop of `_extract_image_info`, carrying the `seen` set:
an element already seen is skipped, otherwise it is emitted and added
to the set. -/
def uniqueImagesAux (seen : List String) : List String → List String
  | [] => []
  | s :: rest =>
    if seen.contains s then uniqueImagesAux seen rest
    else s :: uniqueImagesAux (s :: seen) rest

/-- The dedup loop of `_extract_image_info`: drop later duplicates,
preserving first-occurrence order. -/
def uniqueImages (l : List String) : List String :=
  uniqueImagesAux [] l

/-- `AutoscoutScraper._extract_image_info` core (scraper.py): a single
string is wrapped in a list, then entries are filtered to strings with
an image extension and de-duplicated preserving order. -/
def extract_image_list (images : List Val) : List String :=
  uniqueImages (filteredImages images)

end Scraper

/-- The dedup loop only ever emits elements of its input. -/
theorem uniqueImagesAux_subset (l : List String) :
    ∀ seen, ∀ u ∈ Scraper.uniqueImagesAux seen l, u ∈ l := by
  induction l with
  | nil => intro seen u hu; cases hu
  | cons s rest ih =>
    intro seen u hu
    unfold Scraper.uniqueImagesAux at hu
    by_cases hs : seen.contains s = true
    · rw [if_pos hs] at hu
      exact List.mem_cons_of_mem _ (ih seen u hu)
    · rw [if_neg hs] at hu
      rcases List.mem_cons.mp hu with hu | hu
      · exact hu ▸ List.mem_cons_self _ _
      · exact List.mem_cons_of_mem _ (ih (s :: seen) u hu)

/-- The dedup loop never emits an element of the `seen` set. -/
theorem uniqueImagesAux_not_seen (l : List String) :
    ∀ seen, ∀ u ∈ Scraper.uniqueImagesAux seen l, ¬ seen.contains u := by
  induction l with
  | nil => intro seen u hu; cases hu
  | cons s rest ih =>
    intro seen u hu
    unfold Scraper.uniqueImagesAux at hu
    by_cases hs : seen.contains s = true
    · rw [if_pos hs] at hu
      exact ih seen u hu
    · rw [if_neg hs] at hu
      rcases List.mem_cons.mp hu with hu | hu
      · exact hu ▸ hs
      · intro hcon
        have := ih (s :: seen) u hu
        simp only [List.contains_cons, Bool.or_eq_true] at this
        exact this (Or.inr hcon)

/-- The dedup loop produces a duplicate-free list. -/
theorem uniqueImages_nodup (l : List String) :
    (Scraper.uniqueImages l).Nodup := by
  suffices h : ∀ seen, (Scraper.uniqueImagesAux seen l).Nodup from h []
  induction l with
  | nil => intro seen; exact List.nodup_nil
  | cons s rest ih =>
    intro seen
    unfold Scraper.uniqueImagesAux
    by_cases hs : seen.contains s = true
    · rw [if_pos hs]
      exact ih seen
    · rw [if_neg hs]
      refine List.nodup_cons.mpr ⟨?_, ih (s :: seen)⟩
      intro hmem
      have := uniqueImagesAux_not_seen rest (s :: seen) s hmem
      simp at this

/-- Every element surviving the filter loop contains an image
extension. -/
theorem filteredImages_ext (l : List Val) :
    ∀ u ∈ Scraper.filteredImages l, hasImageExt u = true := by
  induction l with
  | nil => intro u hu; cases hu
  | cons item rest ih =>
    intro u hu
    unfold Scraper.filteredImages at hu
    simp only [List.foldr_cons] at hu
    match item with
    | .vStr s =>
      by_cases hext : hasImageExt s
      · simp [hext] at hu
        rcases hu with h | h
        · subst h; exact hext
        · exact ih u h
      · simp [hext] at hu
        exact ih u hu
    | .vInt n => exact ih u hu
    | .vList l2 => exact ih u hu
    | .vUrlObj o => exact ih u hu

/-! ## Match Engine (C3, C10)

Models of `DatabaseManager._matches_user_preferences` (db.py) and
`UserPreferences.matches_listing` (models/user_preferences.py).  A
listing is the dictionary passed to the predicates; `none` models a
missing or null field.  In the db predicate a null price or mileage
raises a TypeError in the comparison, which the surrounding
try/except turns into False. -/

/-- The year value of a listing dictionary: a date string or an int. -/
inductive YearV where
  | ystr (s : String)
  | yint (n : Int)

/-- Python truthiness of the year value: 0 and the empty string are
falsy. -/
def yearTruthy : YearV → Bool
  | .ystr s => s ≠ ""
  | .yint n => n ≠ 0

/-- A listing dictionary as seen by the two matching predicates. -/
structure ListingRow where
  price : Option Int
  mileage : Option Int
  year : Option YearV
  source_zipcode_id : Option Int
  brand : Option String
  fuel_type : Option String
  transmission : Option String

/-- A user row as selected by `_link_listings_to_users` (db.py):
columns price_min, price_max, mileage_max, year_min, possibly null. -/
structure DbUser where
  price_min : Option Int
  price_max : Option Int
  mileage_max : Option Int
  year_min : Option Int

/-- Python `value or default` on a nullable int: both None and 0 fall
back to the default. -/
def pyOrInt (v : Option Int) (d : Int) : Int :=
  match v with
  | none => d
  | some n => if n = 0 then d else n

/-- Year conversion of the db predicate: for a string, Python
`int(s[:4])` on the first four characters; for an int, the int. -/
def dbYearToInt : YearV → Option Int
  | .ystr s => pyIntOfString (s.take 4)
  | .yint n => some n

/-- Year conversion of `UserPreferences.matches_listing`: Python
`int(listing_year)` on the whole value. -/
def modelYearToInt : YearV → Option Int
  | .ystr s => pyIntOfString s
  | .yint n => some n

/-- `DatabaseManager._matches_user_preferences` (db.py): preference
bounds fall back on None/0, the price bounds are multiplied by 100
(euros to cents), mileage_min is hardcoded 0, the year conversion
failure skips the year check, and the zipcode check is skipped when
either side is absent. -/
def dbMatches (listing : ListingRow) (user : DbUser) (user_zipcodes : List Int) : Bool :=
  match listing.price with
  | none => false
  | some lp =>
    let price_min := pyOrInt user.price_min 0
    let price_max := pyOrInt user.price_max 1000000
    if lp < price_min * 100 || lp > price_max * 100 then false
    else
      match listing.mileage with
      | none => false
      | some lm =>
        if lm < 0 || lm > pyOrInt user.mileage_max 200000 then false
        else
          let yearOk :=
            match listing.year with
            | none => true
            | some y =>
              if yearTruthy y then
                match dbYearToInt y with
                | none => true
                | some yi =>
                  match user.year_min with
                  | none => true
                  | some ym => if ym = 0 then true else decide (ym ≤ yi)
              else true
          if !yearOk then false
          else
            match listing.source_zipcode_id with
            | none => true
            | some z =>
              if user_zipcodes.isEmpty || z = 0 then true
              else user_zipcodes.contains z

/-- The preference record of `UserPreferences` with its dataclass
defaults; year bounds carry the year of the stored date. -/
structure UserPreferencesM where
  price_min : Int
  price_max : Int
  mileage_min : Int
  mileage_max : Int
  year_min : Option Int
  year_max : Option Int
  preferred_brands : List String
  preferred_fuel_types : List String
  preferred_transmissions : List String

/-- `UserPreferences.matches_listing` (models/user_preferences.py):
bounds are compared directly against the stored values — no euros to
cents conversion — and brand/fuel/transmission allow-lists are
checked case-insensitively. -/
def matchesListing (prefs : UserPreferencesM) (listing : ListingRow) : Bool :=
  let lp := listing.price.getD 0
  if lp < prefs.price_min || lp > prefs.price_max then false
  else
    let lm := listing.mileage.getD 0
    if lm < prefs.mileage_min || lm > prefs.mileage_max then false
    else
      let yearOk :=
        match listing.year with
        | none => true
        | some y =>
          if yearTruthy y then
            match modelYearToInt y with
            | none => true
            | some yi =>
              let minOk := match prefs.year_min with
                | none => true
                | some ym => decide (ym ≤ yi)
              let maxOk := match prefs.year_max with
                | none => true
                | some ym => decide (yi ≤ ym)
              minOk && maxOk
          else true
      if !yearOk then false
      else
        let brandOk :=
          if prefs.preferred_brands.isEmpty then true
          else prefs.preferred_brands.any
            (fun b => pyIn (pyUpperStr b) (pyUpperStr (listing.brand.getD "")))
        if !brandOk then false
        else
          let fuelOk :=
            if prefs.preferred_fuel_types.isEmpty then true
            else (prefs.preferred_fuel_types.map pyUpperStr).contains
              (pyUpperStr (listing.fuel_type.getD ""))
          if !fuelOk then false
          else
            let transOk :=
              if prefs.preferred_transmissions.isEmpty then true
              else (prefs.preferred_transmissions.map pyUpperStr).contains
                (pyUpperStr (listing.transmission.getD ""))
            if !transOk then false else true

/-- A listing with the given cent price and no other populated field
besides a zero mileage (as stored rows carry). -/
def priceOnlyListing (p : Int) : ListingRow :=
  ⟨some p, some 0, none, none, none, none, none⟩

/-- The user row of the documented example: price_min 10000 and
price_max 20000 euros, nothing else set. -/
def examplePrefsUser : DbUser :=
  ⟨some 10000, some 20000, none, none⟩

/-! ## Batch insert fallback (C4)

Model of `DatabaseManager.insert_listings_batch` (db.py).  The
per-row interaction with the store is an oracle: the duplicate-URL
pre-check finds an existing row (the row is skipped), or the insert
succeeds, or it raises (the error is captured in the failure list). -/

/-- Outcome of one row of the individual-insert fallback. -/
inductive RowOutcome where
  | dup
  | ok
  | err (msg : String)

/-- The fallback loop of `insert_listings_batch`: duplicate rows are
skipped entirely, successful rows increment the stored count, failing
rows are captured with their reason. -/
def insertIndividually : List (String × RowOutcome) → Nat × List (String × String)
  | [] => (0, [])
  | (_, .dup) :: rest => insertIndividually rest
  | (_, .ok) :: rest =>
    let r := insertIndividually rest
    (r.1 + 1, r.2)
  | (i, .err m) :: rest =>
    let r := insertIndividually rest
    (r.1, (i, m) :: r.2)

/-- `insert_listings_batch` (db.py): one multi-row insert first; on
its failure, the per-row fallback.  Returns the stored count and the
captured failure list. -/
def insert_listings_batch (batchOk : Bool) (rows : List (String × RowOutcome)) :
    Nat × List (String × String) :=
  if batchOk then (rows.length, []) else insertIndividually rows

/-- Number of rows skipped by the duplicate-URL pre-check. -/
def countDup (rows : List (String × RowOutcome)) : Nat :=
  (rows.filter (fun r => match r.2 with | .dup => true | _ => false)).length

/-! ## Theorems for C5, C6, C7 -/

/-- C5 counterexample: the scraper fuel-type normalizer does not map the
alias-table input "hybrid" to its mapped canonical value "Hybrid": the
substring loop hits the earlier alias "b" and returns "Gasoline". -/
theorem C5_counterexample :
    Scraper.format_fuel_type "hybrid" = "Gasoline" ∧
    Scraper.format_fuel_type "hybrid" ≠ "Hybrid" := by
  constructor <;> decide

/-- C5 amended: the DataProcessor normalizer satisfies the claimed table
property (every alias-table input maps to its value; any other
normalized input not case-insensitively canonical maps to Unknown).
The scraper variant instead matches alias keys by substring containment
in table order, so "hybrid" and "hybride" map to "Gasoline" (via the
earlier alias "b") while all other alias keys map to their table value;
inputs containing no alias key as a substring and not equal to a
canonical value map to Unknown. -/
theorem C5_amended :
    (∀ s r, fuelAliasLookup (pyNorm s) = some r →
      DataProcessor.format_fuel_type s = r) ∧
    (∀ s, fuelAliasLookup (pyNorm s) = none →
      fuelCanonicalLookup (pyNorm s) = none →
      DataProcessor.format_fuel_type s = "Unknown") ∧
    (fuel_type_map.map (fun kv => Scraper.format_fuel_type kv.1) =
      ["Gasoline", "Gasoline", "Gasoline", "Gasoline", "Gasoline",
       "Diesel", "Diesel", "Electric", "Electric", "Electric",
       "Electric", "Electric", "Gasoline", "Gasoline", "Hybrid",
       "Other", "Other", "Other", "Other", "Other", "Other", "Other"]) ∧
    (∀ s, fuelAliasSubLookup (pyNorm s) = none →
      fuelCanonicalLookup (pyNorm s) = none →
      Scraper.format_fuel_type s = "Unknown") := by
  refine ⟨?_, ?_, by decide, ?_⟩
  · intro s r h
    unfold DataProcessor.format_fuel_type
    by_cases hs : s = ""
    · subst hs
      have hnone : fuelAliasLookup (pyNorm "") = none := by decide
      rw [hnone] at h
      exact Option.noConfusion h
    · simp only [hs, if_false]
      rw [h]
  · intro s h1 h2
    unfold DataProcessor.format_fuel_type
    by_cases hs : s = ""
    · simp [hs]
    · simp only [hs, if_false]
      rw [h1, h2]
  · intro s h1 h2
    unfold Scraper.format_fuel_type
    by_cases hs : s = ""
    · simp [hs]
    · simp only [hs, if_false]
      rw [h1, h2]

/-- C5 witness: the amended theorem applied at concrete inputs: the
alias "ESSENCE " normalizes into the table, "zzz" falls through to
Unknown under both normalizers. -/
theorem C5_amended_witness :
    DataProcessor.format_fuel_type "ESSENCE " = "Gasoline" ∧
    DataProcessor.format_fuel_type "zzz" = "Unknown" ∧
    Scraper.format_fuel_type "zzz" = "Unknown" :=
  ⟨C5_amended.1 "ESSENCE " "Gasoline" (by decide),
   C5_amended.2.1 "zzz" (by decide) (by decide),
   C5_amended.2.2.2 "zzz" (by decide) (by decide)⟩

/-- C6 counterexample: `_parse_numeric` applied to the string "0": the
string branch concatenates the digit runs and returns 0 with no
positivity check, where the claim demands null. -/
theorem C6_counterexample :
    DataProcessor.parse_numeric (.pstr "0") = some 0 ∧
    DataProcessor.parse_numeric (.pstr "0") ≠ none := by
  constructor <;> decide

/-- C6 amended: `_parse_numeric` returns 25000 for "25 000 €" by
concatenating all digit runs, and null for non-positive int and float
inputs (in particular for the integer -5 and the integer 0); but a
string input returns its concatenated digit value with no positivity
check, so the string "0" yields 0, not null. -/
theorem C6_amended :
    DataProcessor.parse_numeric (.pstr "25 000 €") = some 25000 ∧
    DataProcessor.parse_numeric (.pint (-5)) = none ∧
    DataProcessor.parse_numeric (.pint 0) = none ∧
    (∀ n : Int, n ≤ 0 → DataProcessor.parse_numeric (.pint n) = none) ∧
    DataProcessor.parse_numeric (.pstr "0") = some 0 := by
  refine ⟨by decide, by decide, by decide, ?_, by decide⟩
  intro n hn
  unfold DataProcessor.parse_numeric
  rcases eq_or_lt_of_le hn with h | h
  · simp [h.symm]
  · have h0 : ¬ (n = 0) := by omega
    have h1 : ¬ (n > 0) := by omega
    simp [h0, h1]

/-- C6 witness: the amended theorem applied at the concrete non-positive
integer -3. -/
theorem C6_amended_witness :
    DataProcessor.parse_numeric (.pint (-3)) = none :=
  C6_amended.2.2.2.1 (-3) (by decide)

/-- C7 counterexample: `_parse_image_urls` applies neither the extension
filter nor the dedup, so the documented input does not yield the
claimed ["a.jpg", "b.png"]. -/
theorem C7_counterexample :
    ¬ (DataProcessor.parse_image_urls
        (.list [.vUrlObj "a.jpg", .vUrlObj "a.jpg", .vStr "b.png"]) =
       ["a.jpg", "b.png"]) := by
  decide

/-- C7 amended: the DataProcessor parser accepts a single string, a list
of strings, or a list of url-objects, but applies no extension filter
and no dedup: the documented input yields ["a.jpg", "a.jpg", "b.png"].
The extension filter and the first-occurrence dedup live in the
scraper's `_extract_image_info`, which only accepts string entries
(url-objects are dropped), so it yields ["b.png"] on the corresponding
input; its output is always duplicate-free and every element contains
an image extension. -/
theorem C7_amended :
    DataProcessor.parse_image_urls
      (.list [.vUrlObj "a.jpg", .vUrlObj "a.jpg", .vStr "b.png"]) =
      ["a.jpg", "a.jpg", "b.png"] ∧
    Scraper.extract_image_list
      [.vUrlObj "a.jpg", .vUrlObj "a.jpg", .vStr "b.png"] = ["b.png"] ∧
    (∀ l : List Val, (Scraper.extract_image_list l).Nodup) ∧
    (∀ l : List Val, ∀ u ∈ Scraper.extract_image_list l, hasImageExt u = true) := by
  refine ⟨by decide, by decide, ?_, ?_⟩
  · intro l
    exact uniqueImages_nodup (Scraper.filteredImages l)
  · intro l u hu
    have h1 : u ∈ Scraper.filteredImages l :=
      uniqueImagesAux_subset (Scraper.filteredImages l) [] u hu
    exact filteredImages_ext l u h1

/-! ## Theorems for C3, C4, C10 -/

/-- C3: the db matching predicate converts the preference bounds
10000/20000 euros to cents and compares inclusively: 1,500,000 cents
matches, exactly 2,000,000 cents matches, 2,000,001 cents does not;
in general a price-only listing matches exactly when its cent price
lies in the closed interval. -/
theorem C3_price_bounds :
    dbMatches (priceOnlyListing 1500000) examplePrefsUser [] = true ∧
    dbMatches (priceOnlyListing 2000000) examplePrefsUser [] = true ∧
    dbMatches (priceOnlyListing 2000001) examplePrefsUser [] = false ∧
    (∀ p : Int, dbMatches (priceOnlyListing p) examplePrefsUser [] =
      (decide (1000000 ≤ p) && decide (p ≤ 2000000))) := by
  refine ⟨by decide, by decide, by decide, ?_⟩
  intro p
  unfold dbMatches priceOnlyListing examplePrefsUser pyOrInt
  by_cases h1 : p < 1000000
  · have h2 : ¬ (1000000 ≤ p) := by omega
    simp [h1, h2]
  · by_cases h3 : p > 2000000
    · have h4 : ¬ (p ≤ 2000000) := by omega
      simp [h1, h3, h4]
    · have h5 : 1000000 ≤ p := by omega
      have h6 : p ≤ 2000000 := by omega
      simp [h1, h3, h5, h6]

/-- C4 counterexample: one row whose duplicate pre-check finds an
existing listing is neither stored nor captured as a failure, so the
failure list is shorter than N minus the stored count. -/
theorem C4_counterexample :
    (insert_listings_batch false [("u1", RowOutcome.dup)]).1 = 0 ∧
    ¬ ((insert_listings_batch false [("u1", RowOutcome.dup)]).2.length =
        [("u1", RowOutcome.dup)].length -
          (insert_listings_batch false [("u1", RowOutcome.dup)]).1) := by
  constructor
  · rfl
  · intro h
    simp [insert_listings_batch, insertIndividually] at h

/-- C4 amended: when the whole-batch insert fails, the fallback stores
rows individually and produces a stored count at most N, and the
captured failure list has length N minus the stored count minus the
number of rows skipped by the duplicate-URL pre-check (so it equals
N minus the stored count only when no duplicate is skipped). -/
theorem C4_amended :
    ∀ rows : List (String × RowOutcome),
      (insert_listings_batch false rows).1 ≤ rows.length ∧
      (insert_listings_batch false rows).1 +
        (insert_listings_batch false rows).2.length + countDup rows =
        rows.length := by
  intro rows
  simp only [insert_listings_batch, if_neg (Bool.false_ne_true)]
  induction rows with
  | nil => simp [insertIndividually, countDup]
  | cons r rest ih =>
    obtain ⟨i, o⟩ := r
    match o with
    | .dup =>
      simp [insertIndividually, countDup, List.filter_cons] at ih ⊢
      omega
    | .ok =>
      simp [insertIndividually, countDup, List.filter_cons] at ih ⊢
      omega
    | .err m =>
      simp [insertIndividually, countDup, List.filter_cons] at ih ⊢
      omega

/-- C10 counterexample: with identical preference bounds 10000/20000,
the db predicate accepts a listing priced 1,500,000 cents (it
multiplies the bounds by 100) while `matches_listing` rejects it (it
compares the bounds directly), so the two predicates do not decide
the same result. -/
theorem C10_counterexample :
    dbMatches (priceOnlyListing 1500000) examplePrefsUser [] = true ∧
    matchesListing ⟨10000, 20000, 0, 200000, none, none, [], [], []⟩
      (priceOnlyListing 1500000) = false := by
  constructor <;> decide

/-- Evaluation of the db predicate on a price-only listing: only the
price-range comparison remains. -/
theorem dbMatches_priceOnly_eval (p pmin pmax : Int) :
    dbMatches (priceOnlyListing p) ⟨some pmin, some pmax, none, none⟩ [] =
      !(decide (p < (pyOrInt (some pmin) 0) * 100) ||
        decide ((pyOrInt (some pmax) 1000000) * 100 < p)) := by
  unfold dbMatches priceOnlyListing
  simp only []
  by_cases hc : (decide (p < (pyOrInt (some pmin) 0) * 100) ||
      decide ((pyOrInt (some pmax) 1000000) * 100 < p)) = true
  · simp only [gt_iff_lt, hc, if_true, Bool.not_true]
  · have hc' := Bool.not_eq_true _ |>.mp hc
    simp only [gt_iff_lt, hc', Bool.false_eq_true, if_false, Bool.not_false]
    simp [pyOrInt]

/-- Evaluation of `matches_listing` on a price-only listing with no
optional criteria: only the price-range comparison remains. -/
theorem matchesListing_priceOnly_eval (p pmn pmx : Int) :
    matchesListing ⟨pmn, pmx, 0, 200000, none, none, [], [], []⟩
        (priceOnlyListing p) =
      !(decide (p < pmn) || decide (pmx < p)) := by
  unfold matchesListing priceOnlyListing
  simp only []
  by_cases hc : (decide (p < pmn) || decide (pmx < p)) = true
  · simp only [gt_iff_lt, Option.getD_some, hc, if_true, Bool.not_true]
  · have hc' := Bool.not_eq_true _ |>.mp hc
    simp only [gt_iff_lt, Option.getD_some, hc', Bool.false_eq_true, if_false,
      Bool.not_false]
    simp

/-- C10 amended: the two predicates differ exactly by the price-unit
conversion: the db predicate multiplies the preference bounds by 100
while `matches_listing` uses them as given, so on price-only listings
they agree exactly when `matches_listing` is handed the bounds
already scaled to cents (price_max nonzero so that the db fallback
does not fire). -/
theorem C10_amended :
    ∀ (p pmin pmax : Int), pmax ≠ 0 →
      dbMatches (priceOnlyListing p) ⟨some pmin, some pmax, none, none⟩ [] =
      matchesListing ⟨100 * pmin, 100 * pmax, 0, 200000, none, none, [], [], []⟩
        (priceOnlyListing p) := by
  intro p pmin pmax hmax
  rw [dbMatches_priceOnly_eval, matchesListing_priceOnly_eval]
  have e1 : pyOrInt (some pmin) 0 = pmin := by
    show (if pmin = 0 then (0 : Int) else pmin) = pmin
    split <;> omega
  have e2 : pyOrInt (some pmax) 1000000 = pmax := by
    show (if pmax = 0 then (1000000 : Int) else pmax) = pmax
    rw [if_neg hmax]
  rw [e1, e2, Int.mul_comm pmin 100, Int.mul_comm pmax 100]

/-- C10 witness: the amended theorem at the documented example: bounds
10000/20000 euros, price 1,500,000 cents, where the model predicate
scaled to cents agrees with the db predicate. -/
theorem C10_amended_witness :
    dbMatches (priceOnlyListing 1500000) ⟨some 10000, some 20000, none, none⟩ [] =
      matchesListing ⟨100 * 10000, 100 * 20000, 0, 200000, none, none, [], [], []⟩
        (priceOnlyListing 1500000) :=
  C10_amended 1500000 10000 20000 (by decide)

/-! ## Re-check Scheduler: deletion transition (C8)

Model of `ListingChecker._check_existence`, `_handle_listing_deleted`
and `_create_deletion_notifications` (listing_checker.py).  The store
is a record of listing rows, user-listing link rows and notification
rows; "corbeille" is the trashed link status, "nouveau" the new one. -/

/-- A row of the `user_listings` table. -/
structure LinkRow where
  user_id : String
  listing_id : String
  status : String

/-- A row of the `notifications` table (the fields the claim is
about). -/
structure NotifRow where
  user_id : String
  ntype : String
  listing_id : String

/-- A row of the `listings` table as selected by the checker. -/
structure CheckerListing where
  id : String
  url : String
  price : Option Int
  still_exists : Bool

/-- The tables touched by the deletion transition. -/
structure DbState where
  listings : List CheckerListing
  links : List LinkRow
  notifs : List NotifRow

/-- `ListingChecker._check_existence`: a HEAD status in [200, 400) means
the listing exists; any other status, and any timeout or error
(`none`), means it does not. -/
def check_existence (resp : Option Nat) : Bool :=
  match resp with
  | some code => decide (200 ≤ code) && decide (code < 400)
  | none => false

/-- The notification row built by `_create_deletion_notifications` for
one affected user. -/
def deletionNotif (lid : String) (k : LinkRow) : NotifRow :=
  ⟨k.user_id, "listing_deleted", lid⟩

/-- `ListingChecker._handle_listing_deleted`: set the listing's exists
flag to false, move every link of the listing to the trash status
"corbeille", then create one deletion notification per link row of the
listing (`_create_deletion_notifications` selects the user ids from
`user_listings`). -/
def handle_listing_deleted (st : DbState) (lid : String) : DbState :=
  let listings' := st.listings.map
    (fun l => if l.id = lid then { l with still_exists := false } else l)
  let links' := st.links.map
    (fun k => if k.listing_id = lid then { k with status := "corbeille" } else k)
  let newNotifs := (links'.filter (fun k => k.listing_id = lid)).map (deletionNotif lid)
  ⟨listings', links', st.notifs ++ newNotifs⟩

/-- The status update of a link row performed on deletion. -/
def trashLink (lid : String) (k : LinkRow) : LinkRow :=
  if k.listing_id = lid then { k with status := "corbeille" } else k

/-- Updating the statuses of the links of a listing does not change
which rows the notification query selects, nor the users they name. -/
theorem trashed_links_same_notifs (links : List LinkRow) (lid : String) :
    ((links.map (trashLink lid)).filter (fun k => k.listing_id = lid)).map
        (deletionNotif lid) =
      (links.filter (fun k => k.listing_id = lid)).map (deletionNotif lid) := by
  induction links with
  | nil => rfl
  | cons k rest ih =>
    by_cases hk : k.listing_id = lid
    · rw [List.map_cons]
      rw [show trashLink lid k = { k with status := "corbeille" } from if_pos hk]
      rw [List.filter_cons_of_pos (by simpa using hk),
        List.filter_cons_of_pos (by simpa using hk)]
      rw [List.map_cons, List.map_cons, ih]
      rfl
    · rw [List.map_cons]
      rw [show trashLink lid k = k from if_neg hk]
      rw [List.filter_cons_of_neg (by simpa using hk),
        List.filter_cons_of_neg (by simpa using hk)]
      exact ih

/-- When the (user, listing) pairs of the link table are unique, the
users linked to one listing are pairwise distinct. -/
theorem linked_users_nodup (links : List LinkRow) (lid : String) :
    (links.map (fun k => (k.user_id, k.listing_id))).Nodup →
    ((links.filter (fun k => k.listing_id = lid)).map (fun k => k.user_id)).Nodup := by
  induction links with
  | nil => intro _; simp
  | cons k rest ih =>
    intro h
    rw [List.map_cons, List.nodup_cons] at h
    obtain ⟨hnotin, hrest⟩ := h
    by_cases hk : k.listing_id = lid
    · rw [List.filter_cons_of_pos (by simpa using hk)]
      rw [List.map_cons, List.nodup_cons]
      refine ⟨?_, ih hrest⟩
      intro hmem
      rw [List.mem_map] at hmem
      obtain ⟨k', hk'mem, hk'eq⟩ := hmem
      have hk'f := List.mem_filter.mp hk'mem
      obtain ⟨hk'rest, hk'lid⟩ := hk'f
      apply hnotin
      rw [List.mem_map]
      refine ⟨k', hk'rest, ?_⟩
      have hk'lid' : k'.listing_id = lid := by simpa using hk'lid
      rw [hk'eq, hk'lid', hk]
    · rw [List.filter_cons_of_neg (by simpa using hk)]
      exact ih hrest

/-- C8: when the existence probe of a listing fails (HEAD status
outside [200, 400) or a timeout/error) and the listing previously
existed, the checker branch fires and the deletion handler: sets the
listing's exists flag to false, moves every link of the listing to the
trashed status "corbeille", and appends exactly the deletion
notifications of the linked users — one `listing_deleted` notification
per link row, and (given the at-most-one-link-per-pair invariant) the
notified users are pairwise distinct, so exactly one per linked user. -/
theorem C8_deletion_transition :
    ∀ (st : DbState) (l : CheckerListing) (probe : Option Nat),
      (∀ code, probe = some code → code < 200 ∨ 400 ≤ code) →
      l.still_exists = true →
      (st.links.map (fun k => (k.user_id, k.listing_id))).Nodup →
      (!(check_existence probe) && l.still_exists) = true ∧
      (∀ row ∈ (handle_listing_deleted st l.id).listings,
        row.id = l.id → row.still_exists = false) ∧
      (∀ k ∈ (handle_listing_deleted st l.id).links,
        k.listing_id = l.id → k.status = "corbeille") ∧
      ((handle_listing_deleted st l.id).notifs =
        st.notifs ++ (st.links.filter (fun k => k.listing_id = l.id)).map
          (deletionNotif l.id)) ∧
      (((st.links.filter (fun k => k.listing_id = l.id)).map
          (fun k => k.user_id)).Nodup) := by
  intro st l probe hprobe hex hnodup
  refine ⟨?_, ?_, ?_, ?_, linked_users_nodup st.links l.id hnodup⟩
  · rw [hex]
    match probe with
    | none => rfl
    | some code =>
      rcases hprobe code rfl with h | h
      · unfold check_existence
        have : ¬ (200 ≤ code) := by omega
        simp [this]
      · unfold check_existence
        have : ¬ (code < 400) := by omega
        simp [this]
  · intro row hrow hid
    unfold handle_listing_deleted at hrow
    simp only [List.mem_map] at hrow
    obtain ⟨l0, _, hupd⟩ := hrow
    by_cases h0 : l0.id = l.id
    · rw [← hupd, if_pos h0]
    · rw [← hupd, if_neg h0] at hid ⊢
      exact absurd hid h0
  · intro k hk hkid
    unfold handle_listing_deleted at hk
    simp only [List.mem_map] at hk
    obtain ⟨k0, _, hupd⟩ := hk
    by_cases h0 : k0.listing_id = l.id
    · rw [← hupd, if_pos h0]
    · rw [← hupd, if_neg h0] at hkid ⊢
      exact absurd hkid h0
  · show st.notifs ++ _ = st.notifs ++ _
    congr 1
    exact trashed_links_same_notifs st.links l.id

/-- C8 witness: a concrete store with two users linked to listing L1,
probed with HEAD status 404: the guard fires, the listing is marked
deleted, both links are trashed and the two deletion notifications are
appended, one per user. -/
theorem C8_deletion_transition_witness :
    (!(check_existence (some 404)) && true) = true ∧
    (∀ row ∈ (handle_listing_deleted
        ⟨[⟨"L1", "u1", some 100, true⟩],
         [⟨"alice", "L1", "nouveau"⟩, ⟨"bob", "L1", "nouveau"⟩], []⟩
        "L1").listings, row.id = "L1" → row.still_exists = false) ∧
    (∀ k ∈ (handle_listing_deleted
        ⟨[⟨"L1", "u1", some 100, true⟩],
         [⟨"alice", "L1", "nouveau"⟩, ⟨"bob", "L1", "nouveau"⟩], []⟩
        "L1").links, k.listing_id = "L1" → k.status = "corbeille") ∧
    ((handle_listing_deleted
        ⟨[⟨"L1", "u1", some 100, true⟩],
         [⟨"alice", "L1", "nouveau"⟩, ⟨"bob", "L1", "nouveau"⟩], []⟩
        "L1").notifs =
      [] ++ (([⟨"alice", "L1", "nouveau"⟩, ⟨"bob", "L1", "nouveau"⟩] : List LinkRow).filter
          (fun k => k.listing_id = "L1")).map (deletionNotif "L1")) ∧
    (((([⟨"alice", "L1", "nouveau"⟩, ⟨"bob", "L1", "nouveau"⟩] : List LinkRow).filter
          (fun k => k.listing_id = "L1")).map (fun k => k.user_id)).Nodup) := by
  have h := C8_deletion_transition
    ⟨[⟨"L1", "u1", some 100, true⟩],
     [⟨"alice", "L1", "nouveau"⟩, ⟨"bob", "L1", "nouveau"⟩], []⟩
    ⟨"L1", "u1", some 100, true⟩ (some 404)
    (by intro code hc; cases hc; omega) rfl (by decide)
  exact h

/-! ## Listing Collector: pagination stopping rule (C9)

Model of the Phase 2 URL-collection loop of
`AutoscoutScraper.scrape_all_listings` (scraper.py).  The fetched
content of index page i is the input function `pages i`; `fuel` models
the `while current_page <= max_pages` bound (fuel = max_pages + 1 -
current_page).  The source compares `existing_count > len(car_urls) *
0.7` in Python: the int operands convert exactly to doubles (exact for
lengths below 2^53, far beyond any page size), `0.7` is the IEEE-754
double 6305039478318694 / 2^53, the product is that double times the
length rounded to the nearest double with ties to even, and the final
int-versus-float comparison is mathematically exact.  `pyMul07Gt`
reproduces this bit-for-bit: the float test also fires on some
exactly-70-percent pages (e.g. 63 of 90 known, since 90 * 0.7 rounds
to 62.99999999999999289), while every strictly-more-than-70-percent
page fires it (`pyMul07Gt_of_over70`). -/

/-- Result of the collection loop: the (1-based) index pages fetched in
order, the accumulated new URLs, and the stop reason. -/
structure CollectResult where
  fetchedPages : List Nat
  allUrls : List String
  stopReason : Option String

/-- Floor of the base-2 logarithm, by structural recursion on a fuel
bound. -/
def log2Fuel : Nat → Nat → Nat
  | 0, _ => 0
  | fuel + 1, n => if 2 ≤ n then log2Fuel fuel (n / 2) + 1 else 0

/-- Floor of the base-2 logarithm; the fuel 1100 covers every value
below 2^1100, far beyond the products appearing in the 0.7
comparison. -/
def natLog2 (n : Nat) : Nat :=
  log2Fuel 1100 n

/-- IEEE-754 round-to-nearest with ties to even of A / b for a power
of two b: the rounded mantissa. -/
def roundMantissa (A b : Nat) : Nat :=
  if 2 * (A % b) < b then A / b
  else if b < 2 * (A % b) then A / b + 1
  else if (A / b) % 2 = 0 then A / b else A / b + 1

/-- The double `len * 0.7`, scaled by 2^53: the significand of the
double nearest 0.7 is 6305039478318694 (0.7 = 6305039478318694 *
2^-53 after rounding), so the exact product is len * 6305039478318694
over 2^53, which is then rounded to a 53-bit significand. -/
def float07TimesNum (len : Nat) : Nat :=
  if len = 0 then 0
  else
    roundMantissa (len * 6305039478318694)
        (2 ^ (natLog2 (len * 6305039478318694) - 52)) *
      2 ^ (natLog2 (len * 6305039478318694) - 52)

/-- The Python test `count > len * 0.7` on ints: both sides scaled by
2^53, compared exactly. -/
def pyMul07Gt (count len : Nat) : Bool :=
  decide (float07TimesNum len < count * 2 ^ 53)

/-- Page i has `existing_count > len(car_urls) * 0.7` under Python
float semantics. -/
def mostlyExisting (pages : Nat → List String) (existing : List String) (i : Nat) : Bool :=
  pyMul07Gt ((pages i).filter (fun u => existing.contains u)).length (pages i).length

/-- The fuel-bounded logarithm is sound: its power does not exceed the
argument. -/
theorem log2Fuel_pow_le : ∀ (fuel n : Nat), 0 < n → n < 2 ^ fuel →
    2 ^ log2Fuel fuel n ≤ n := by
  intro fuel
  induction fuel with
  | zero =>
    intro n h1 h2
    simp at h2
    omega
  | succ fuel ih =>
    intro n h1 h2
    unfold log2Fuel
    by_cases h3 : 2 ≤ n
    · rw [if_pos h3]
      have hpow : (2:Nat) ^ (fuel + 1) = 2 * 2 ^ fuel := by
        rw [pow_succ]; ring
      have hdiv2 : n / 2 < 2 ^ fuel := by omega
      have hrec := ih (n / 2) (by omega) hdiv2
      have hstep : (2:Nat) ^ (log2Fuel fuel (n / 2) + 1) =
          2 ^ log2Fuel fuel (n / 2) * 2 := by
        rw [pow_succ]
      rw [hstep]
      omega
    · rw [if_neg h3]
      simpa using h1

/-- The fuel-bounded logarithm is complete: it reaches every exponent
below the fuel. -/
theorem le_log2Fuel : ∀ (fuel k n : Nat), k < fuel → 2 ^ k ≤ n →
    k ≤ log2Fuel fuel n := by
  intro fuel
  induction fuel with
  | zero =>
    intro k n h _
    omega
  | succ fuel ih =>
    intro k n hk h2
    match k with
    | 0 => exact Nat.zero_le _
    | k + 1 =>
      have hn2 : 2 ≤ n := by
        have h3 : (2:Nat) ^ 1 ≤ 2 ^ (k + 1) := Nat.pow_le_pow_right (by omega) (by omega)
        simp at h3
        omega
      unfold log2Fuel
      rw [if_pos hn2]
      have hpow : (2:Nat) ^ (k + 1) = 2 * 2 ^ k := by
        rw [pow_succ]; ring
      have hnext : 2 ^ k ≤ n / 2 := by omega
      have := ih k (n / 2) (by omega) hnext
      omega

/-- The rounded mantissa is at most one above the truncated
quotient. -/
theorem roundMantissa_le (A b : Nat) : roundMantissa A b ≤ A / b + 1 := by
  unfold roundMantissa
  split_ifs <;> omega

/-- Every strictly-more-than-70-percent page fires the Python float
test: the double 0.7 lies below 7/10, and for list lengths up to 2^48
the rounding error cannot bridge the gap to the next integer. -/
theorem pyMul07Gt_of_over70 (count len : Nat) (hlen : len ≤ 2 ^ 48)
    (h : 7 * len < 10 * count) : pyMul07Gt count len = true := by
  unfold pyMul07Gt float07TimesNum
  by_cases h0 : len = 0
  · subst h0
    rw [if_pos rfl, decide_eq_true_eq]
    have h1 : 0 < count := by omega
    have h2 : 0 < (2:Nat) ^ 53 := by positivity
    exact Nat.mul_pos h1 h2
  · rw [if_neg h0, decide_eq_true_eq]
    set A := len * 6305039478318694 with hA
    set s := natLog2 A - 52 with hs
    have hlenpos : 0 < len := Nat.pos_of_ne_zero h0
    have hA52 : 2 ^ 52 ≤ A := by
      have h1 : (2:Nat) ^ 52 ≤ 6305039478318694 := by decide
      have h2 : 6305039478318694 ≤ len * 6305039478318694 :=
        Nat.le_mul_of_pos_left _ hlenpos
      omega
    have hAub : A < 2 ^ 1100 := by
      have h1 : A ≤ 2 ^ 48 * 6305039478318694 :=
        Nat.mul_le_mul_right _ hlen
      have h2 : (2:Nat) ^ 48 * 6305039478318694 < 2 ^ 101 := by decide
      have h3 : (2:Nat) ^ 101 ≤ 2 ^ 1100 := Nat.pow_le_pow_right (by omega) (by omega)
      omega
    have hlog52 : 52 ≤ natLog2 A := le_log2Fuel 1100 52 A (by omega) hA52
    have hpowle : 2 ^ natLog2 A ≤ A := log2Fuel_pow_le 1100 A (by omega) hAub
    have hseq : s + 52 = natLog2 A := by omega
    have h2s52 : 2 ^ s * 2 ^ 52 ≤ A := by
      rw [← pow_add, hseq]
      exact hpowle
    have h2slen : 2 ^ s ≤ 2 * len := by
      have hKlt : (6305039478318694:Nat) < 2 ^ 53 := by decide
      have hAlt : A < len * 2 ^ 53 := by
        rw [hA]
        exact mul_lt_mul_of_pos_left hKlt hlenpos
      have hsplit : len * 2 ^ 53 = (2 * len) * 2 ^ 52 := by ring
      have h1 : 2 ^ s * 2 ^ 52 < (2 * len) * 2 ^ 52 := by omega
      exact le_of_lt (lt_of_mul_lt_mul_right h1 (Nat.zero_le _))
    have hrm : roundMantissa A (2 ^ s) ≤ A / 2 ^ s + 1 := roundMantissa_le A (2 ^ s)
    have hdm : A / 2 ^ s * 2 ^ s ≤ A := Nat.div_mul_le_self A (2 ^ s)
    have hms : roundMantissa A (2 ^ s) * 2 ^ s ≤ A + 2 ^ s := by
      have h1 : roundMantissa A (2 ^ s) * 2 ^ s ≤ (A / 2 ^ s + 1) * 2 ^ s :=
        Nat.mul_le_mul_right _ hrm
      have h2 : (A / 2 ^ s + 1) * 2 ^ s = A / 2 ^ s * 2 ^ s + 2 ^ s := by ring
      omega
    omega

/-- The URL-collection loop of `scrape_all_listings`: stop on an empty
page; count consecutive mostly-existing pages and stop at the second;
otherwise accumulate the new URLs of the page and continue. -/
def collect_pages (pages : Nat → List String) (existing : List String) :
    Nat → Nat → Nat → List Nat → List String → CollectResult
  | _, _, 0, fetched, acc => ⟨fetched.reverse, acc, none⟩
  | current, consec, fuel + 1, fetched, acc =>
    let car_urls := pages current
    if car_urls.isEmpty then
      ⟨(current :: fetched).reverse, acc, some "No more cars found"⟩
    else
      let newUrls := car_urls.filter (fun u => !existing.contains u)
      if mostlyExisting pages existing current then
        if consec + 1 ≥ 2 then
          ⟨(current :: fetched).reverse, acc,
            some "Hit existing listings on consecutive pages"⟩
        else
          collect_pages pages existing (current + 1) (consec + 1) fuel
            (current :: fetched) (acc ++ newUrls)
      else
        collect_pages pages existing (current + 1) 0 fuel
          (current :: fetched) (acc ++ newUrls)

/-- The collection phase started at page 1 with a zero consecutive
counter, bounded by `max_pages` iterations. -/
def scrape_collect_urls (pages : Nat → List String) (existing : List String)
    (maxPages : Nat) : CollectResult :=
  collect_pages pages existing 1 0 maxPages [] []

/-- Run of the loop up to a consecutive mostly-existing pair at pages
j and j+1: every page from the current one through j+1 is fetched and
the loop stops there with the consecutive-pages reason. -/
theorem collect_pages_pair_stop (pages : Nat → List String) (existing : List String)
    (j : Nat) :
    ∀ fuel c consec fetched acc,
      c ≤ j →
      j + 2 - c ≤ fuel →
      (∀ i, c ≤ i → i ≤ j + 1 → (pages i).isEmpty = false) →
      (∀ i, c ≤ i → i < j →
        (mostlyExisting pages existing i = false ∨
         mostlyExisting pages existing (i + 1) = false)) →
      mostlyExisting pages existing j = true →
      mostlyExisting pages existing (j + 1) = true →
      (consec = 0 ∨ (consec = 1 ∧ mostlyExisting pages existing c = false)) →
      (collect_pages pages existing c consec fuel fetched acc).fetchedPages =
          fetched.reverse ++ List.range' c (j + 2 - c) ∧
        (collect_pages pages existing c consec fuel fetched acc).stopReason =
          some "Hit existing listings on consecutive pages" := by
  intro fuel
  induction fuel with
  | zero =>
    intro c consec fetched acc hc hfuel _ _ _ _ _
    omega
  | succ fuel ih =>
    intro c consec fetched acc hc hfuel hne hnopair hj hj1 hinv
    have hcne : (pages c).isEmpty = false := hne c le_rfl (by omega)
    rcases Nat.eq_or_lt_of_le hc with hcj | hcj
    · subst hcj
      have hcons : consec = 0 := by
        rcases hinv with h | ⟨_, hfalse⟩
        · exact h
        · rw [hj] at hfalse; cases hfalse
      subst hcons
      cases fuel with
      | zero => omega
      | succ fuel' =>
        have hc1ne : (pages (c + 1)).isEmpty = false := hne (c + 1) (by omega) (by omega)
        have hstep : collect_pages pages existing c 0 (fuel' + 1 + 1) fetched acc =
            ⟨((c + 1) :: c :: fetched).reverse,
              acc ++ (pages c).filter (fun u => !existing.contains u),
              some "Hit existing listings on consecutive pages"⟩ := by
          simp [collect_pages, hcne, hj, hc1ne, hj1]
        rw [hstep]
        constructor
        · show ((c + 1) :: c :: fetched).reverse =
            fetched.reverse ++ List.range' c (c + 2 - c)
          have h2 : c + 2 - c = 2 := by omega
          rw [h2, List.reverse_cons, List.reverse_cons, List.append_assoc]
          rfl
        · rfl
    · have hih : ∀ consec', (consec' = 0 ∨ (consec' = 1 ∧
          mostlyExisting pages existing (c + 1) = false)) →
          (collect_pages pages existing (c + 1) consec' fuel (c :: fetched)
              (acc ++ (pages c).filter (fun u => !existing.contains u))).fetchedPages =
            (c :: fetched).reverse ++ List.range' (c + 1) (j + 2 - (c + 1)) ∧
          (collect_pages pages existing (c + 1) consec' fuel (c :: fetched)
              (acc ++ (pages c).filter (fun u => !existing.contains u))).stopReason =
            some "Hit existing listings on consecutive pages" := by
        intro consec' hinv'
        exact ih (c + 1) consec' (c :: fetched) _ (by omega) (by omega)
          (fun i h1 h2 => hne i (by omega) h2)
          (fun i h1 h2 => hnopair i (by omega) h2)
          hj hj1 hinv'
      have harr : (c :: fetched).reverse ++ List.range' (c + 1) (j + 2 - (c + 1)) =
          fetched.reverse ++ List.range' c (j + 2 - c) := by
        rw [List.reverse_cons, List.append_assoc]
        congr 1
        have h2 : j + 2 - c = (j + 1 - c) + 1 := by omega
        have h3 : j + 2 - (c + 1) = j + 1 - c := by omega
        rw [h2, h3]
        rfl
      cases hdc : mostlyExisting pages existing c with
      | true =>
        have hcons : consec = 0 := by
          rcases hinv with h | ⟨_, hfalse⟩
          · exact h
          · rw [hdc] at hfalse; cases hfalse
        subst hcons
        have hnext : mostlyExisting pages existing (c + 1) = false := by
          rcases hnopair c le_rfl hcj with h | h
          · rw [hdc] at h; cases h
          · exact h
        have hres := hih 1 (Or.inr ⟨rfl, hnext⟩)
        have hstep : collect_pages pages existing c 0 (fuel + 1) fetched acc =
            collect_pages pages existing (c + 1) 1 fuel (c :: fetched)
              (acc ++ (pages c).filter (fun u => !existing.contains u)) := by
          simp [collect_pages, hcne, hdc]
        rw [hstep]
        rw [harr] at hres
        exact hres
      | false =>
        have hres := hih 0 (Or.inl rfl)
        have hstep : collect_pages pages existing c consec (fuel + 1) fetched acc =
            collect_pages pages existing (c + 1) 0 fuel (c :: fetched)
              (acc ++ (pages c).filter (fun u => !existing.contains u)) := by
          simp [collect_pages, hcne, hdc]
        rw [hstep]
        rw [harr] at hres
        exact hres

/-- Run of the loop up to the first empty page j: pages from the
current one through j are fetched and the loop stops with the
end-of-results reason. -/
theorem collect_pages_empty_stop (pages : Nat → List String) (existing : List String)
    (j : Nat) :
    ∀ fuel c consec fetched acc,
      c ≤ j →
      j + 1 - c ≤ fuel →
      (∀ i, c ≤ i → i < j → (pages i).isEmpty = false) →
      (∀ i, c ≤ i → i + 1 < j →
        (mostlyExisting pages existing i = false ∨
         mostlyExisting pages existing (i + 1) = false)) →
      (pages j).isEmpty = true →
      (consec = 0 ∨ (consec = 1 ∧ (c < j → mostlyExisting pages existing c = false))) →
      (collect_pages pages existing c consec fuel fetched acc).fetchedPages =
          fetched.reverse ++ List.range' c (j + 1 - c) ∧
        (collect_pages pages existing c consec fuel fetched acc).stopReason =
          some "No more cars found" := by
  intro fuel
  induction fuel with
  | zero =>
    intro c consec fetched acc hc hfuel _ _ _ _
    omega
  | succ fuel ih =>
    intro c consec fetched acc hc hfuel hne hnopair hj hinv
    rcases Nat.eq_or_lt_of_le hc with hcj | hcj
    · subst hcj
      have hstep : collect_pages pages existing c consec (fuel + 1) fetched acc =
          ⟨(c :: fetched).reverse, acc, some "No more cars found"⟩ := by
        simp [collect_pages, hj]
      rw [hstep]
      constructor
      · show (c :: fetched).reverse = fetched.reverse ++ List.range' c (c + 1 - c)
        have h2 : c + 1 - c = 1 := by omega
        rw [h2, List.reverse_cons]
        rfl
      · rfl
    · have hcne : (pages c).isEmpty = false := hne c le_rfl hcj
      have harr : (c :: fetched).reverse ++ List.range' (c + 1) (j + 1 - (c + 1)) =
          fetched.reverse ++ List.range' c (j + 1 - c) := by
        rw [List.reverse_cons, List.append_assoc]
        congr 1
        have h2 : j + 1 - c = (j - c) + 1 := by omega
        have h3 : j + 1 - (c + 1) = j - c := by omega
        rw [h2, h3]
        rfl
      have hih : ∀ consec', (consec' = 0 ∨ (consec' = 1 ∧
          (c + 1 < j → mostlyExisting pages existing (c + 1) = false))) →
          (collect_pages pages existing (c + 1) consec' fuel (c :: fetched)
              (acc ++ (pages c).filter (fun u => !existing.contains u))).fetchedPages =
            (c :: fetched).reverse ++ List.range' (c + 1) (j + 1 - (c + 1)) ∧
          (collect_pages pages existing (c + 1) consec' fuel (c :: fetched)
              (acc ++ (pages c).filter (fun u => !existing.contains u))).stopReason =
            some "No more cars found" := by
        intro consec' hinv'
        exact ih (c + 1) consec' (c :: fetched) _ (by omega) (by omega)
          (fun i h1 h2 => hne i (by omega) h2)
          (fun i h1 h2 => hnopair i (by omega) h2)
          hj hinv'
      cases hdc : mostlyExisting pages existing c with
      | true =>
        have hcons : consec = 0 := by
          rcases hinv with h | ⟨_, hfalse⟩
          · exact h
          · rw [hfalse hcj] at hdc; cases hdc
        subst hcons
        have hnext : c + 1 < j → mostlyExisting pages existing (c + 1) = false := by
          intro hlt
          rcases hnopair c le_rfl hlt with h | h
          · rw [hdc] at h; cases h
          · exact h
        have hres := hih 1 (Or.inr ⟨rfl, hnext⟩)
        have hstep : collect_pages pages existing c 0 (fuel + 1) fetched acc =
            collect_pages pages existing (c + 1) 1 fuel (c :: fetched)
              (acc ++ (pages c).filter (fun u => !existing.contains u)) := by
          simp [collect_pages, hcne, hdc]
        rw [hstep]
        rw [harr] at hres
        exact hres
      | false =>
        have hres := hih 0 (Or.inl rfl)
        have hstep : collect_pages pages existing c consec (fuel + 1) fetched acc =
            collect_pages pages existing (c + 1) 0 fuel (c :: fetched)
              (acc ++ (pages c).filter (fun u => !existing.contains u)) := by
          simp [collect_pages, hcne, hdc]
        rw [hstep]
        rw [harr] at hres
        exact hres

/-- C9: when pages j and j+1 are the first two consecutive index pages
firing the mostly-existing test (the Python float comparison
`existing_count > len * 0.7`, modelled bit-for-bit, and no earlier
page is empty), collection fetches exactly pages 1..j+1 — in
particular page j+2 is never fetched — and stops with the
consecutive-pages reason; when page j is the first page yielding zero
URLs, collection fetches exactly pages 1..j and stops immediately
with the end-of-results reason; and every page with strictly more
than 70 percent of its URLs already known (up to length 2^48) fires
the test, so the claimed pairs are covered. -/
theorem C9_stopping_rule :
    (∀ (pages : Nat → List String) (existing : List String) (maxPages j : Nat),
      1 ≤ j → j + 1 ≤ maxPages →
      (∀ i, 1 ≤ i → i ≤ j + 1 → (pages i).isEmpty = false) →
      (∀ i, 1 ≤ i → i < j →
        (mostlyExisting pages existing i = false ∨
         mostlyExisting pages existing (i + 1) = false)) →
      mostlyExisting pages existing j = true →
      mostlyExisting pages existing (j + 1) = true →
      (scrape_collect_urls pages existing maxPages).fetchedPages =
          List.range' 1 (j + 1) ∧
        (j + 2) ∉ (scrape_collect_urls pages existing maxPages).fetchedPages ∧
        (scrape_collect_urls pages existing maxPages).stopReason =
          some "Hit existing listings on consecutive pages") ∧
    (∀ (pages : Nat → List String) (existing : List String) (maxPages j : Nat),
      1 ≤ j → j ≤ maxPages →
      (∀ i, 1 ≤ i → i < j → (pages i).isEmpty = false) →
      (∀ i, 1 ≤ i → i + 1 < j →
        (mostlyExisting pages existing i = false ∨
         mostlyExisting pages existing (i + 1) = false)) →
      (pages j).isEmpty = true →
      (scrape_collect_urls pages existing maxPages).fetchedPages = List.range' 1 j ∧
        (scrape_collect_urls pages existing maxPages).stopReason =
          some "No more cars found") ∧
    (∀ count len : Nat, len ≤ 2 ^ 48 → 7 * len < 10 * count →
      pyMul07Gt count len = true) := by
  refine ⟨?_, ?_, pyMul07Gt_of_over70⟩
  · intro pages existing maxPages j hj1 hjm hne hnopair hdj hdj1
    have h := collect_pages_pair_stop pages existing j maxPages 1 0 [] []
      hj1 (by omega) hne hnopair hdj hdj1 (Or.inl rfl)
    have hn : j + 2 - 1 = j + 1 := by omega
    rw [hn] at h
    unfold scrape_collect_urls
    refine ⟨by simpa using h.1, ?_, h.2⟩
    rw [show (collect_pages pages existing 1 0 maxPages [] []).fetchedPages =
      List.range' 1 (j + 1) from by simpa using h.1]
    intro hmem
    rw [List.mem_range'_1] at hmem
    omega
  · intro pages existing maxPages j hj1 hjm hne hnopair hej
    have h := collect_pages_empty_stop pages existing j maxPages 1 0 [] []
      hj1 (by omega) hne hnopair hej (Or.inl rfl)
    have hn : j + 1 - 1 = j := by omega
    rw [hn] at h
    unfold scrape_collect_urls
    exact ⟨by simpa using h.1, h.2⟩

/-- C9 witness: with known URLs a and b, pages 1 and 2 each consisting
of one already-known URL (100 percent known), and a page cap of 3,
collection fetches exactly pages 1 and 2 and never page 3; with an
immediately empty page 1 it fetches only page 1; and a page with 8 of
10 URLs known (80 percent) fires the float test. -/
theorem C9_stopping_rule_witness :
    ((scrape_collect_urls
        (fun i => if i = 1 then ["a"] else if i = 2 then ["b"] else ["c"])
        ["a", "b"] 3).fetchedPages = List.range' 1 2 ∧
      (3 : Nat) ∉ (scrape_collect_urls
        (fun i => if i = 1 then ["a"] else if i = 2 then ["b"] else ["c"])
        ["a", "b"] 3).fetchedPages ∧
      (scrape_collect_urls
        (fun i => if i = 1 then ["a"] else if i = 2 then ["b"] else ["c"])
        ["a", "b"] 3).stopReason =
        some "Hit existing listings on consecutive pages") ∧
    ((scrape_collect_urls (fun _ => []) [] 1).fetchedPages = List.range' 1 1 ∧
      (scrape_collect_urls (fun _ => []) [] 1).stopReason =
        some "No more cars found") ∧
    pyMul07Gt 8 10 = true := by
  refine ⟨?_, ?_, ?_⟩
  · exact C9_stopping_rule.1
      (fun i => if i = 1 then ["a"] else if i = 2 then ["b"] else ["c"])
      ["a", "b"] 3 1 (by omega) (by omega)
      (by intro i h1 h2; interval_cases i <;> decide)
      (by intro i h1 h2; omega)
      (by decide) (by decide)
  · exact C9_stopping_rule.2.1 (fun _ => []) [] 1 1 (by omega) (by omega)
      (by intro i h1 h2; omega)
      (by intro i h1 h2; omega)
      (by decide)
  · exact C9_stopping_rule.2.2 8 10 (by decide) (by decide)

/-! ## Page Extractor: extraction cascade and merge (C2, C1)

Model of `_extract_json_ld_data`, `_extract_embedded_json_data`,
`_extract_from_initial_state` and their helpers (scraper.py).  The
`car_data` dictionary is a function from the listing fields to
`Option (Option Val)`: the outer option is key presence, the inner one
nullability, so that `dict.update` and the falsy `dict.get` checks are
modelled exactly.  A JSON-LD block is a `JsonLdDoc` (blocks whose
`json.loads` fails are simply absent from the list); the raw page is a
`PageEmbedded` record whose fields are the findings of the individual
regex patterns of `_extract_embedded_json_data` (a `none`/`false`
finding models a pattern that does not match).  Scope of the model:
documents carry no description, name, phones or contactPoint keys (so
the contact and title branches do not fire and the always-present
description of `_extract_vehicle_info` is the cleaned empty string);
the `listingDetails` regex captures a brace-free fragment which on
real nested pages is not valid JSON, so that strategy contributes
nothing; numeric strings are parseable by Python `float` exactly when
they are plain digit runs. -/

/-- The listing fields handled by the extraction cascade. -/
inductive CarField where
  | url | sourceSite | brand | model | year | mileage | fuelType
  | transmission | description | price | estimatedPrice | sellerPhone
  | imageUrl | location | carId
deriving DecidableEq

/-- A Python dict over the listing fields: outer option is key
presence, inner option nullability. -/
def Dict : Type := CarField → Option (Option Val)

/-- The empty dict. -/
def dempty : Dict := fun _ => none

/-- Dict with a single key, possibly null. -/
def dsingle (f : CarField) (v : Option Val) : Dict :=
  fun g => if g = f then some v else none

/-- `d[f] = v` with a non-null value. -/
def dset (d : Dict) (f : CarField) (v : Val) : Dict :=
  fun g => if g = f then some (some v) else d g

/-- Python `d1.update(d2)`: keys of d2 win, even with null values. -/
def dupdate (d1 d2 : Dict) : Dict :=
  fun f => match d2 f with
  | some v => some v
  | none => d1 f

/-- Python `d.get(f)`: None for an absent key and for a null value. -/
def dget (d : Dict) (f : CarField) : Option Val :=
  match d f with
  | some (some v) => some v
  | _ => none

/-- Python truthiness of a `d.get` result: None, the empty string,
zero and the empty list are falsy. -/
def valTruthy : Option Val → Bool
  | none => false
  | some (.vStr s) => s ≠ ""
  | some (.vInt n) => n ≠ 0
  | some (.vList l) => !l.isEmpty
  | some (.vUrlObj _) => true

/-- A raw numeric JSON value: a string or an int. -/
inductive NumVal where
  | ns (s : String)
  | ni (n : Int)

/-- Truthiness of a raw numeric value. -/
def numTruthy : NumVal → Bool
  | .ns s => s ≠ ""
  | .ni n => n ≠ 0

/-- Raw numeric value as a dict value. -/
def numToVal : NumVal → Val
  | .ns s => .vStr s
  | .ni n => .vInt n

/-- Python `int(float(x))` on a raw numeric value; in the modelled
scope a string parses exactly when it is a plain digit run. -/
def intFloatParse : NumVal → Option Int
  | .ni n => some n
  | .ns s =>
    if s ≠ "" && s.data.all Char.isDigit then some (natOfDigits s.data : Int)
    else none

/-- A JSON-LD brand/manufacturer value: a string or an object with a
name. -/
inductive BrandV where
  | bstr (s : String)
  | bobj (name : String)

/-- Truthiness of a brand value (an object is non-empty, hence
truthy). -/
def brandTruthy : BrandV → Bool
  | .bstr s => s ≠ ""
  | .bobj _ => true

/-- One entry of a JSON-LD offers list: a dict with an optional price,
or a non-dict entry (skipped by the loop). -/
inductive OfferItem where
  | oitem (price : Option NumVal)
  | onondict

/-- The JSON-LD offers value: a dict, a list, or another shape. -/
inductive Offers where
  | obj (price : Option NumVal)
  | olist (items : List OfferItem)
  | onother

/-- The JSON-LD image value: a single string or a list. -/
inductive ImageV where
  | istr (s : String)
  | ilist (l : List Val)

/-- One JSON-LD block, restricted to the keys read by the cascade
(absent option fields model absent keys). -/
structure JsonLdDoc where
  atType : String
  manufacturer : Option BrandV
  brand : Option BrandV
  model : Option String
  productionDate : Option String
  dateVehicleFirstRegistered : Option String
  mileage : Option NumVal
  odometer : Option NumVal
  kilometers : Option NumVal
  vehicleEngine : Option (List (Option String))
  transmission : Option String
  gearBox : Option String
  vehicleTransmission : Option String
  price : Option NumVal
  offers : Option Offers
  image : Option ImageV

/-- Python `a or b` on two optional strings (an empty string is
falsy). -/
def pyOrStr (a b : Option String) : Option String :=
  match a with
  | some s => if s ≠ "" then some s else b
  | none => b

/-- `AutoscoutScraper._parse_year`: the first four consecutive digits
of the date string. -/
def findYear4 : List Char → Option String
  | [] => none
  | c1 :: rest =>
    match rest with
    | c2 :: c3 :: c4 :: _ =>
      if c1.isDigit && c2.isDigit && c3.isDigit && c4.isDigit then
        some ⟨[c1, c2, c3, c4]⟩
      else findYear4 rest
    | _ => none

/-- `_parse_year` on the chosen date field. -/
def parse_year_scr (s : Option String) : Option String :=
  match s with
  | none => none
  | some str => if str = "" then none else findYear4 str.data

/-- The field loop of `_extract_mileage`: first truthy value that
parses via `int(float(...))`; a parse failure moves to the next
field. -/
def firstMileage : List (Option NumVal) → Option Int
  | [] => none
  | none :: rest => firstMileage rest
  | some v :: rest =>
    if numTruthy v then
      match intFloatParse v with
      | some n => some n
      | none => firstMileage rest
    else firstMileage rest

/-- `AutoscoutScraper._extract_fuel_type`: first engine with a truthy
fuelType, else Unknown. -/
def extract_fuel_type (engines : Option (List (Option String))) : String :=
  let es := engines.getD []
  if es.isEmpty then "Unknown"
  else
    match es.find? (fun e => match e with | some s => s ≠ "" | none => false) with
    | some (some s) => s
    | _ => "Unknown"

/-- The field loop of `_extract_transmission`: first truthy value. -/
def firstTruthyStr : List (Option String) → Option String
  | [] => none
  | some s :: rest => if s ≠ "" then some s else firstTruthyStr rest
  | none :: rest => firstTruthyStr rest

/-- `AutoscoutScraper._extract_transmission`. -/
def extract_transmission (doc : JsonLdDoc) : String :=
  (firstTruthyStr [doc.transmission, doc.gearBox, doc.vehicleTransmission]).getD "Unknown"

/-- `AutoscoutScraper._extract_vehicle_info`: always emits the seven
vehicle keys, each possibly null; the brand falls back from
manufacturer to brand and unwraps a dict to its name. -/
def extract_vehicle_info (doc : JsonLdDoc) : Dict :=
  let b0 : Option BrandV :=
    match doc.manufacturer with
    | some m => if brandTruthy m then some m else doc.brand
    | none => doc.brand
  let b : Option Val :=
    match b0 with
    | none => none
    | some (.bstr s) => some (.vStr s)
    | some (.bobj n) => some (.vStr n)
  fun f =>
    match f with
    | .brand => some b
    | .model => some (doc.model.map .vStr)
    | .year => some ((parse_year_scr
        (pyOrStr doc.productionDate doc.dateVehicleFirstRegistered)).map .vStr)
    | .mileage => some ((firstMileage [doc.mileage, doc.odometer, doc.kilometers]).map .vInt)
    | .fuelType => some (some (.vStr (extract_fuel_type doc.vehicleEngine)))
    | .transmission => some (some (.vStr (extract_transmission doc)))
    | .description => some (some (.vStr ""))
    | _ => none

/-- `AutoscoutScraper._extract_price_info`: a truthy price is parsed
(a parse failure yields the empty dict); a falsy present price is
emitted unchanged. -/
def extract_price_info (v : NumVal) : Dict :=
  if numTruthy v then
    match intFloatParse v with
    | some n => dsingle .price (some (.vInt n))
    | none => dempty
  else dsingle .price (some (numToVal v))

/-- The offers-list loop of `_extract_offers_info`: first dict entry
with a truthy, parseable price. -/
def offersListLoop : List OfferItem → Dict
  | [] => dempty
  | .onondict :: rest => offersListLoop rest
  | .oitem p :: rest =>
    match p with
    | some v =>
      if numTruthy v then
        match intFloatParse v with
        | some n => dsingle .price (some (.vInt n))
        | none => offersListLoop rest
      else offersListLoop rest
    | none => offersListLoop rest

/-- `AutoscoutScraper._extract_offers_info`. -/
def extract_offers_info : Offers → Dict
  | .obj p =>
    (match p with
     | some v =>
       if numTruthy v then
         match intFloatParse v with
         | some n => dsingle .price (some (.vInt n))
         | none => dempty
       else dempty
     | none => dempty)
  | .olist items => offersListLoop items
  | .onother => dempty

/-- `AutoscoutScraper._extract_image_info`: wrap a single string,
filter to strings with an image extension, dedup, and emit the list
only when non-empty. -/
def extract_image_info (img : ImageV) : Dict :=
  let l := match img with
    | .istr s => [Val.vStr s]
    | .ilist l => l
  let u := Scraper.extract_image_list l
  if u.isEmpty then dempty else dsingle .imageUrl (some (.vList (u.map .vStr)))

/-- The body of the JSON-LD loop of `_extract_json_ld_data` for one
block, within the modelled scope (no phones/contactPoint/name keys):
each branch merges its fragment into `car_data` with a plain
`dict.update`. -/
def process_json_ld_doc (d : Dict) (doc : JsonLdDoc) : Dict :=
  let d1 := if doc.atType = "Car" then dupdate d (extract_vehicle_info doc) else d
  let d2 := if doc.atType = "Product" &&
      (doc.brand.isSome || doc.model.isSome || doc.vehicleEngine.isSome) then
    dupdate d1 (extract_vehicle_info doc) else d1
  let d3 := match doc.price with
    | some p => dupdate d2 (extract_price_info p)
    | none => d2
  let d4 := match doc.offers with
    | some o => dupdate d3 (extract_offers_info o)
    | none => d3
  match doc.image with
  | some i => dupdate d4 (extract_image_info i)
  | none => d4

/-- Characters of the id-pattern class (lowercase hex digits and
dash). -/
def isHexOrDash (c : Char) : Bool :=
  c.isDigit || ('a' ≤ c && c ≤ 'f') || c = '-'

/-- First id pattern: a slash, then a maximal non-empty run of
id-class characters, followed by a question mark or the end of the
URL. -/
def pat1Aux : List Char → Option String
  | [] => none
  | '/' :: rest =>
    let run := rest.takeWhile isHexOrDash
    let after := rest.drop run.length
    if !run.isEmpty && (after.isEmpty || after.head? = some '?') then some ⟨run⟩
    else pat1Aux rest
  | _ :: rest => pat1Aux rest

/-- Second id pattern: the literal "offres/", one non-slash segment, a
slash, then a non-empty run of id-class characters (first occurrence
in the URL). -/
def pat2Aux : List Char → Option String
  | [] => none
  | l@(_ :: rest) =>
    if "offres/".data.isPrefixOf l then
      let after := l.drop 7
      let seg := after.takeWhile (fun c => c ≠ '/')
      match seg, after.drop seg.length with
      | _ :: _, '/' :: tail =>
        let run := tail.takeWhile isHexOrDash
        if !run.isEmpty then some ⟨run⟩ else pat2Aux rest
      | _, _ => pat2Aux rest
    else pat2Aux rest

/-- Segment check of the bare UUID pattern: exactly n id-class
characters available. -/
def segCheck (l : List Char) (n : Nat) : Bool :=
  (l.take n).length = n && (l.take n).all isHexOrDash

/-- The 8-4-4-4-12 shape of the third id pattern at the head of the
list. -/
def uuidMatch (l : List Char) : Bool :=
  segCheck l 8 && (l.drop 8).head? = some '-' &&
  segCheck (l.drop 9) 4 && (l.drop 13).head? = some '-' &&
  segCheck (l.drop 14) 4 && (l.drop 18).head? = some '-' &&
  segCheck (l.drop 19) 4 && (l.drop 23).head? = some '-' &&
  segCheck (l.drop 24) 12

/-- Third id pattern: the first UUID-shaped substring anywhere in the
URL. -/
def pat3Aux : List Char → Option String
  | [] => none
  | l@(_ :: rest) => if uuidMatch l then some ⟨l.take 36⟩ else pat3Aux rest

/-- The id-extraction cascade of `_extract_json_ld_data` (lines
376-389): first matching pattern wins. -/
def extract_car_id (url : String) : Option String :=
  match pat1Aux url.data with
  | some i => some i
  | none =>
    match pat2Aux url.data with
    | some i => some i
    | none => pat3Aux url.data

/-- A phone entry of the embedded JSON. -/
structure Phone where
  formattedNumber : Option String
  callTo : Option String

/-- The value taken from a phone entry:
`phone.get('formattedNumber', phone.get('callTo', ''))`. -/
def phoneValue (p : Phone) : String :=
  match p.formattedNumber with
  | some s => s
  | none => p.callTo.getD ""

/-- An entry of the evaluationRanges array. -/
structure EvalRange where
  category : Option Int
  maximum : Option Int

/-- The inner listing object of the initial-state payload, restricted
to the keys `_extract_from_initial_state` reads (the
prices.public.evaluationRanges chain is collapsed into one optional
list). -/
structure InitListing where
  description : Option String
  model : Option String
  name : Option String
  images : Option (List Val)
  phones : Option (List Phone)
  evalRanges : Option (List EvalRange)

/-- The model-from-name guard: the name contains a digit or one of the
substrings c, e, s, a, b, classe, class (lower-cased). -/
def nameQualifies (name : String) : Bool :=
  name.data.any Char.isDigit ||
  (["c", "e", "s", "a", "b", "classe", "class"].any
    (fun w => pyIn w (pyLowerStr name)))

/-- The escaped-break cleanup applied to embedded descriptions. -/
def descClean (s : String) : String :=
  (s.replace "\\u003cbr /\\u003e" "\n").replace
    "\\u003cbr /\\u003e\\u003cbr /\\u003e" "\n\n"

/-- `AutoscoutScraper._extract_from_initial_state`: description,
model-or-qualifying-name, non-empty images, first phone, and the
category-1 evaluation range as estimated price. -/
def extract_from_initial_state (st : InitListing) : Dict :=
  let d1 := match st.description with
    | some s => dset dempty .description (.vStr (descClean s))
    | none => dempty
  let d2 := match st.model with
    | some m => dset d1 .model (.vStr m)
    | none =>
      match st.name with
      | some n => if nameQualifies n then dset d1 .model (.vStr n) else d1
      | none => d1
  let d3 := match st.images with
    | some l => if l.isEmpty then d2 else dset d2 .imageUrl (.vList l)
    | none => d2
  let d4 := match st.phones with
    | some (p :: _) => dset d3 .sellerPhone (.vStr (phoneValue p))
    | _ => d3
  match st.evalRanges with
  | some rs =>
    (match rs.find? (fun r => r.category = some 1) with
     | some r => dset d4 .estimatedPrice (.vInt (r.maximum.getD 0))
     | none => d4)
  | none => d4

/-- The location object finding of the embedded extraction. -/
structure LocObj where
  zip : Option String
  city : Option String

/-- The per-pattern findings of `_extract_embedded_json_data` on one
raw page; a `none`/`false` field models a regex that does not match.
The location-pattern fallbacks beyond the location object are scoped
out (pages where those patterns find nothing). -/
structure PageEmbedded where
  initialState : Option InitListing
  firstRegistrationDateRawYear : Option String
  firstRegistrationDateMMYYYY : Option String
  mileageInKmRaw : Option Int
  mileageInKm : Option String
  locationObj : Option LocObj
  fuelTypeJson : Option String
  htmlHasDiesel : Bool
  htmlHasEssence : Bool
  htmlHasGasoline : Bool
  htmlHasElectric : Bool
  htmlHasElectrique : Bool
  htmlHasHybrid : Bool
  htmlHasHybride : Bool
  transmissionHtml : Option String
  transmissionJson : Option String
  descriptionHtml : Option String
  descriptionJson : Option String
  phonesJson : Option (List Phone)
  evaluationRangesJson : Option (List EvalRange)
  imagesJson : Option (List Val)
  modelJson : Option String
  nameJson : Option String

/-- `AutoscoutScraper._extract_fuel_type_from_html`: the JSON fuelType
finding first, else the keyword search in priority order diesel,
essence/gasoline, electric, hybrid, else Unknown. -/
def extract_fuel_type_from_html (page : PageEmbedded) : String :=
  match page.fuelTypeJson with
  | some s => s
  | none =>
    if page.htmlHasDiesel then "Diesel"
    else if page.htmlHasEssence || page.htmlHasGasoline then "Gasoline"
    else if page.htmlHasElectric || page.htmlHasElectrique then "Electric"
    else if page.htmlHasHybrid || page.htmlHasHybride then "Hybrid"
    else "Unknown"

/-- `AutoscoutScraper._extract_transmission_from_html`: the HTML
keyword method first, then the JSON patterns, else Unknown. -/
def extract_transmission_from_html (page : PageEmbedded) : String :=
  match page.transmissionHtml with
  | some s => s
  | none =>
    match page.transmissionJson with
    | some s => s
    | none => "Unknown"

/-- `AutoscoutScraper._extract_description_from_html`: the HTML
method result, else the empty string. -/
def extract_description_from_html (page : PageEmbedded) : String :=
  page.descriptionHtml.getD ""

/-- `AutoscoutScraper._extract_embedded_json_data`: the initial-state
strategy first, then each per-field regex fallback guarded by an
is-the-field-still-falsy check on the local `extracted_data` dict. -/
def extract_embedded_json_data (page : PageEmbedded) : Dict :=
  let d1 := match page.initialState with
    | some st => dupdate dempty (extract_from_initial_state st)
    | none => dempty
  let d2 := if !(valTruthy (dget d1 .year)) then
      match page.firstRegistrationDateRawYear with
      | some y => dset d1 .year (.vStr y)
      | none =>
        match page.firstRegistrationDateMMYYYY with
        | some y => dset d1 .year (.vStr y)
        | none => d1
    else d1
  let d3 := if !(valTruthy (dget d2 .mileage)) then
      match page.mileageInKmRaw with
      | some n => dset d2 .mileage (.vInt n)
      | none =>
        match page.mileageInKm with
        | some s =>
          let ds := digitChars s
          if ds.isEmpty then d2 else dset d2 .mileage (.vInt (natOfDigits ds : Int))
        | none => d2
    else d2
  let d4 := if !(valTruthy (dget d3 .location)) then
      match page.locationObj with
      | some lo =>
        let zipcode := lo.zip.getD ""
        let city := lo.city.getD ""
        if zipcode ≠ "" && city ≠ "" then
          dset d3 .location (.vStr (zipcode ++ " " ++ city))
        else if zipcode ≠ "" then dset d3 .location (.vStr zipcode)
        else if city ≠ "" then dset d3 .location (.vStr city)
        else d3
      | none => d3
    else d3
  let d5 := if !(valTruthy (dget d4 .fuelType)) then
      dset d4 .fuelType (.vStr (extract_fuel_type_from_html page))
    else d4
  let d6 := if !(valTruthy (dget d5 .transmission)) then
      dset d5 .transmission (.vStr (extract_transmission_from_html page))
    else d5
  let d7 := if !(valTruthy (dget d6 .description)) then
      dset d6 .description (.vStr (extract_description_from_html page))
    else d6
  let d8 := if !(valTruthy (dget d7 .description)) then
      match page.descriptionJson with
      | some s => dset d7 .description (.vStr (s.replace "\\u003cbr /\\u003e" "\n"))
      | none => d7
    else d7
  let d9 := if !(valTruthy (dget d8 .sellerPhone)) then
      match page.phonesJson with
      | some (p :: _) => dset d8 .sellerPhone (.vStr (phoneValue p))
      | _ => d8
    else d8
  let d10 := if !(valTruthy (dget d9 .estimatedPrice)) then
      match page.evaluationRangesJson with
      | some rs =>
        (match rs.find? (fun r => r.category = some 1) with
         | some r => dset d9 .estimatedPrice (.vInt (r.maximum.getD 0))
         | none => d9)
      | none => d9
    else d9
  let d11 := if !(valTruthy (dget d10 .imageUrl)) then
      match page.imagesJson with
      | some l => if l.isEmpty then d10 else dset d10 .imageUrl (.vList l)
      | none => d10
    else d10
  if !(valTruthy (dget d11 .model)) then
    match page.modelJson with
    | some m => dset d11 .model (.vStr m)
    | none =>
      match page.nameJson with
      | some n => if nameQualifies n then dset d11 .model (.vStr n) else d11
      | none => d11
  else d11

/-- `AutoscoutScraper._extract_json_ld_data`: seed url and source
site, merge every JSON-LD block with `dict.update`, derive the id from
the URL, then merge the embedded-JSON findings with a final
`dict.update`; the draft is returned only when it has a truthy id. -/
def extract_json_ld_data (docs : List JsonLdDoc) (car_url : String)
    (page : PageEmbedded) : Option Dict :=
  let base : Dict := fun f =>
    match f with
    | .url => some (some (.vStr car_url))
    | .sourceSite => some (some (.vStr "autoscout24"))
    | _ => none
  let afterDocs := docs.foldl process_json_ld_doc base
  let withId := match extract_car_id car_url with
    | some i => dset afterDocs .carId (.vStr i)
    | none => afterDocs
  let final := dupdate withId (extract_embedded_json_data page)
  if valTruthy (dget final .carId) then some final else none

/-- `dget` reads exactly the present non-null values. -/
theorem dget_eq_some_iff (d : Dict) (f : CarField) (v : Val) :
    dget d f = some v ↔ d f = some (some v) := by
  unfold dget
  cases h : d f with
  | none => simp
  | some o => cases o <;> simp

/-- A key present in the right dict wins in a `dict.update`. -/
theorem dupdate_of_right (d1 d2 : Dict) (f : CarField) (ov : Option Val)
    (h : d2 f = some ov) : dupdate d1 d2 f = some ov := by
  unfold dupdate
  rw [h]

/-- A detail URL whose last path segment matches the first id
pattern. -/
def c2Url : String := "https://www.autoscout24.be/fr/voiture/abc123"

/-- A JSON-LD Car block carrying only a mileage of 100000 km. -/
def c2CarDoc : JsonLdDoc :=
  ⟨"Car", none, none, none, none, none, some (.ni 100000), none, none,
   none, none, none, none, none, none, none⟩

/-- A raw page whose only embedded finding is mileageInKmRaw 50. -/
def c2Page : PageEmbedded :=
  ⟨none, none, none, some 50, none, none, none, false, false, false,
   false, false, false, false, none, none, none, none, none, none,
   none, none, none⟩

/-- A raw page carrying both the raw mileage 50 and the formatted
mileage string. -/
def c2PageBoth : PageEmbedded :=
  ⟨none, none, none, some 50, some "239 833 km", none, none, false,
   false, false, false, false, false, false, none, none, none, none,
   none, none, none, none, none⟩

/-- The merged draft of the C2 run. -/
def c2FinalDict : Dict :=
  (extract_json_ld_data [c2CarDoc] c2Url c2Page).getD dempty

/-- C2 counterexample: the JSON-LD strategy (the earliest one)
populates mileage with 100000, yet the merged draft carries the
embedded-JSON strategy's 50: the later strategy overwrote a field the
earlier strategy had populated, because the merge is a blind
`dict.update`. -/
theorem C2_counterexample :
    dget (extract_vehicle_info c2CarDoc) CarField.mileage = some (Val.vInt 100000) ∧
    (extract_json_ld_data [c2CarDoc] c2Url c2Page).map
        (fun d => dget d CarField.mileage) = some (some (Val.vInt 50)) ∧
    ¬ ((extract_json_ld_data [c2CarDoc] c2Url c2Page).map
        (fun d => dget d CarField.mileage) = some (some (Val.vInt 100000))) := by
  refine ⟨rfl, rfl, ?_⟩
  intro h
  rw [show (extract_json_ld_data [c2CarDoc] c2Url c2Page).map
      (fun d => dget d CarField.mileage) = some (some (Val.vInt 50)) from rfl] at h
  simp at h

/-- C2 amended: within the embedded strategy the sub-patterns are
first-match-wins (with both mileage findings present, the raw one
wins and the formatted string is ignored), but across strategies the
top-level merge is a blind `dict.update`: every field the
embedded-JSON strategy produced ends up in the merged draft, even
when an earlier JSON-LD strategy had already populated it. -/
theorem C2_amended :
    dget (extract_embedded_json_data c2PageBoth) CarField.mileage =
      some (Val.vInt 50) ∧
    (∀ (docs : List JsonLdDoc) (url : String) (page : PageEmbedded)
        (f : CarField) (v : Val) (d : Dict),
      dget (extract_embedded_json_data page) f = some v →
      extract_json_ld_data docs url page = some d →
      dget d f = some v) := by
  refine ⟨rfl, ?_⟩
  intro docs url page f v d hemb hd
  simp only [extract_json_ld_data] at hd
  split at hd
  · injection hd with hd'
    subst hd'
    rw [dget_eq_some_iff] at hemb ⊢
    exact dupdate_of_right _ _ _ _ hemb
  · exact Option.noConfusion hd

/-- C2 witness: the amended theorem applied to the C2 run: the
embedded strategy produced mileage 50, so the merged draft carries
50. -/
theorem C2_amended_witness :
    dget c2FinalDict CarField.mileage = some (Val.vInt 50) :=
  C2_amended.2 [c2CarDoc] c2Url c2Page CarField.mileage (Val.vInt 50)
    c2FinalDict rfl rfl

/-! ## Price unit contract (C1)

The stored price of a listing is produced by `_extract_price_info`
(scraper.py), the numeric coercion of `_format_listing` (scraper.py),
`_parse_numeric` and the positive-only coercion of
`_format_listing_data` (data_processor.py).  None of these multiplies
by 100. -/

/-- The price coercion of `AutoscoutScraper._format_listing`: a truthy
price is re-parsed with `int(float(...))`, with failures becoming
null; falsy values pass unchanged. -/
def format_price_step (v : Option Val) : Option Val :=
  match v with
  | none => none
  | some w =>
    if valTruthy (some w) then
      match w with
      | .vInt n => some (.vInt n)
      | .vStr s =>
        (match intFloatParse (.ns s) with
         | some n => some (.vInt n)
         | none => none)
      | _ => none
    else some w

/-- `_parse_numeric` applied to a dict value. -/
def parse_numeric_of_val : Option Val → Option Int
  | some (.vInt n) => DataProcessor.parse_numeric (.pint n)
  | some (.vStr s) => DataProcessor.parse_numeric (.pstr s)
  | _ => none

/-- The positive-only price coercion of
`DataProcessor._format_listing_data`. -/
def format_listing_data_price : Option Int → Option Int
  | some n => if n > 0 then some n else none
  | none => none

/-- The full storage path of a price read from a JSON-LD block. -/
def pipeline_stored_price (raw : NumVal) : Option Int :=
  format_listing_data_price (parse_numeric_of_val (format_price_step
    (dget (extract_price_info raw) CarField.price)))

/-- A raw page whose only finding is a category-1 evaluation range
with maximum 26000. -/
def c1EvalPage : PageEmbedded :=
  ⟨none, none, none, none, none, none, none, false, false, false,
   false, false, false, false, none, none, none, none, none,
   some [⟨some 1, some 26000⟩], none, none, none⟩

/-- C1: the extraction pipeline stores the page's whole-euro amounts
unchanged: a JSON-LD price of 25000 euros is stored as 25000, not as
the 2,500,000 cents the price-unit contract demands, and the
estimated price taken from a category-1 evaluation range with maximum
26000 is stored as 26000.  No stage of the pipeline multiplies by
100, although the matching predicate of db.py and the notification
formatting of listing_checker.py treat the stored values as cents. -/
theorem C1_no_cent_conversion :
    pipeline_stored_price (NumVal.ni 25000) = some 25000 ∧
    dget (extract_embedded_json_data c1EvalPage) CarField.estimatedPrice =
      some (Val.vInt 26000) ∧
    (25000 : Int) ≠ 25000 * 100 := by
  refine ⟨rfl, rfl, by omega⟩
